import Mathlib

/-!
Verification development for the iris coordinate module (lib/iris/coords.py).

The Python source is shallowly embedded over exact rationals: numeric scalar
values become Rat, numpy 1-D arrays become List Rat, Python tuples become
Lean lists, and fallible Python code (raising exceptions) returns Except.
Python methods are translated statement by statement from the source; where a
collaborating module is not part of the source tree (the DataManager backing
array manager, iris.util helpers), the definition is modelled from the
specification and says so in its doc comment.
-/

namespace IrisCoords

/-- Error kinds corresponding to the Python exception classes raised by the
source (ValueError, TypeError, IndexError, and AttributeError for attribute
access on None). Messages are dropped; only the kind matters here. -/
inductive PyErr
  | valueError
  | typeError
  | indexError
  | attributeError
deriving DecidableEq, Repr

deriving instance DecidableEq for Except

/-- The four rich comparison operator methods dispatched through
Cell.__common_cmp__ (operator.lt, operator.le, operator.gt, operator.ge). -/
inductive PyOp
  | lt
  | le
  | gt
  | ge
deriving DecidableEq, Repr

/-- Application of an operator method: operator_method(a, b) for numeric
operands, as a Bool. -/
def applyOp (op : PyOp) (a b : Rat) : Bool :=
  match op with
  | .lt => decide (a < b)
  | .le => decide (a ≤ b)
  | .gt => decide (b < a)
  | .ge => decide (b ≤ a)

/-- Python min over a sequence of numbers; none on an empty sequence
(where Python raises ValueError). On ties the earlier element is kept,
which for rationals is the same value. -/
def listMin : List Rat → Option Rat
  | [] => none
  | x :: xs =>
    some (match listMin xs with
          | none => x
          | some m => min x m)

/-- Python max over a sequence of numbers; none on an empty sequence. -/
def listMax : List Rat → Option Rat
  | [] => none
  | x :: xs =>
    some (match listMax xs with
          | none => x
          | some m => max x m)

theorem listMin_ne_nil (x : Rat) (xs : List Rat) : (listMin (x :: xs)).isSome := by
  simp [listMin]

theorem listMin_mem : ∀ (l : List Rat) (m : Rat), listMin l = some m → m ∈ l := by
  intro l
  induction l with
  | nil => intro m h; simp [listMin] at h
  | cons x xs ih =>
    intro m h
    simp only [listMin] at h
    cases hxs : listMin xs with
    | none => rw [hxs] at h; simp at h; simp [h]
    | some m1 =>
      rw [hxs] at h
      simp at h
      rcases min_cases x m1 with ⟨he, _⟩ | ⟨he, _⟩
      · rw [he] at h; simp [h]
      · rw [he] at h
        right
        exact h ▸ ih m1 hxs

theorem listMin_eq_none (l : List Rat) : listMin l = none ↔ l = [] := by
  cases l <;> simp [listMin]

theorem listMax_eq_none (l : List Rat) : listMax l = none ↔ l = [] := by
  cases l <;> simp [listMax]

theorem listMin_le (l : List Rat) (m : Rat) (h : listMin l = some m) :
    ∀ a ∈ l, m ≤ a := by
  induction l generalizing m with
  | nil => simp [listMin] at h
  | cons x xs ih =>
    intro a ha
    simp only [listMin] at h
    rcases List.mem_cons.mp ha with ha | ha
    · rw [ha]
      cases hxs : listMin xs with
      | none => rw [hxs] at h; simp at h; exact le_of_eq h.symm
      | some m1 => rw [hxs] at h; simp at h; exact h ▸ min_le_left x m1
    · cases hxs : listMin xs with
      | none => rw [listMin_eq_none] at hxs; subst hxs; simp at ha
      | some m1 =>
        rw [hxs] at h
        simp at h
        exact le_trans (h ▸ min_le_right x m1) (ih m1 hxs a ha)

theorem listMax_mem : ∀ (l : List Rat) (m : Rat), listMax l = some m → m ∈ l := by
  intro l
  induction l with
  | nil => intro m h; simp [listMax] at h
  | cons x xs ih =>
    intro m h
    simp only [listMax] at h
    cases hxs : listMax xs with
    | none => rw [hxs] at h; simp at h; simp [h]
    | some m1 =>
      rw [hxs] at h
      simp at h
      rcases max_cases x m1 with ⟨he, _⟩ | ⟨he, _⟩
      · rw [he] at h; simp [h]
      · rw [he] at h
        right
        exact h ▸ ih m1 hxs

theorem le_listMax (l : List Rat) (m : Rat) (h : listMax l = some m) :
    ∀ a ∈ l, a ≤ m := by
  induction l generalizing m with
  | nil => simp [listMax] at h
  | cons x xs ih =>
    intro a ha
    simp only [listMax] at h
    rcases List.mem_cons.mp ha with ha | ha
    · rw [ha]
      cases hxs : listMax xs with
      | none => rw [hxs] at h; simp at h; exact le_of_eq h
      | some m1 => rw [hxs] at h; simp at h; exact h ▸ le_max_left x m1
    · cases hxs : listMax xs with
      | none => rw [listMax_eq_none] at hxs; subst hxs; simp at ha
      | some m1 =>
        rw [hxs] at h
        simp at h
        exact le_trans (ih m1 hxs a ha) (h ▸ le_max_right x m1)

theorem listMin_le_listMax (l : List Rat) (m M : Rat)
    (hm : listMin l = some m) (hM : listMax l = some M) : m ≤ M :=
  listMin_le l m hm M (listMax_mem l M hM)

/-- Cell with a numeric point, as produced by numeric coordinates.
The source stores point (a scalar) and bound (an arbitrary tuple, or None);
see Cell.__new__ for the constructor behaviour. -/
structure Cell where
  point : Rat
  bound : Option (List Rat)
deriving DecidableEq, Repr

/-- Python tuple indexing: bound[i], raising IndexError when out of range. -/
def pyIndex (l : List Rat) (i : Nat) : Except PyErr Rat :=
  match l.get? i with
  | some x => .ok x
  | none => .error .indexError

/-- Cell.contains_point for numeric values: for a bounded cell, whether
min(bound) <= point <= max(bound); ValueError on an unbounded cell.
The datetime guard in the source cannot fire for rational values. -/
def Cell.contains_point (c : Cell) (v : Rat) : Except PyErr Bool :=
  match c.bound with
  | none => .error .valueError
  | some l =>
    match listMin l, listMax l with
    | some m, some M => .ok (decide (m ≤ v) && decide (v ≤ M))
    | _, _ => .error .valueError

/-- Cell.__eq__ against a numeric operand: membership in the bound for a
bounded cell, point equality otherwise. -/
def Cell.eq_num (c : Cell) (v : Rat) : Except PyErr Bool :=
  match c.bound with
  | some _ => c.contains_point v
  | none => .ok (decide (c.point = v))

/-- The non-Cell side of Cell.__common_cmp__ for a numeric operand: an
unbounded cell compares its point; a bounded cell compares min(bound) for
the gt and le operator methods and max(bound) otherwise, with
result = operator_method(me, other). The type guards at the top of the
source method pass for numeric operands. -/
def Cell.common_cmp_num (c : Cell) (v : Rat) (op : PyOp) : Except PyErr Bool :=
  match c.bound with
  | none => .ok (applyOp op c.point v)
  | some l =>
    match (if op = .gt ∨ op = .le then listMin l else listMax l) with
    | none => .error .valueError
    | some me => .ok (applyOp op me v)

/-- The Cell-vs-Cell side of Cell.__common_cmp__, defining the strict sort
order. Translated branch by branch from the source, including the order in
which bound elements are indexed. -/
def Cell.common_cmp_cell (c other : Cell) (op : PyOp) : Except PyErr Bool :=
  match c.bound, other.bound with
  | none, none => .ok (applyOp op c.point other.point)
  | none, some _ =>
    .ok (if c.point = other.point then decide (op = .lt ∨ op = .le)
         else applyOp op c.point other.point)
  | some _, none =>
    .ok (if c.point = other.point then decide (op = .gt ∨ op = .ge)
         else applyOp op c.point other.point)
  | some sb, some ob => do
    let s0 ← pyIndex sb 0
    let o0 ← pyIndex ob 0
    if s0 = o0 then do
      let s1 ← pyIndex sb 1
      let o1 ← pyIndex ob 1
      if s1 = o1 then pure (applyOp op c.point other.point)
      else pure (applyOp op s1 o1)
    else pure (applyOp op s0 o0)

/-- The Python expression v < cell for a number v: int.__lt__ returns
NotImplemented against a Cell, so Python reflects to cell.__gt__(v). -/
def num_lt_cell (v : Rat) (c : Cell) : Except PyErr Bool :=
  c.common_cmp_num v .gt

/-- The Python expression v <= cell, reflected to cell.__ge__(v). -/
def num_le_cell (v : Rat) (c : Cell) : Except PyErr Bool :=
  c.common_cmp_num v .ge

/-- The Python expression v > cell, reflected to cell.__lt__(v). -/
def num_gt_cell (v : Rat) (c : Cell) : Except PyErr Bool :=
  c.common_cmp_num v .lt

/-- The Python expression v == cell, reflected to cell.__eq__(v). -/
def num_eq_cell (v : Rat) (c : Cell) : Except PyErr Bool :=
  c.eq_num v


/-- Claim C1: for every Cell c (with an absent or non-empty bound tuple) and
every numeric value v, exactly one of v < c, v == c, v > c holds, and
v <= c holds iff v < c or v == c. Equality against a bounded cell is
membership in the closed interval from min(bound) to max(bound), and the
relational operators compare min(bound) for greater-than and
less-or-equal, max(bound) for less-than and greater-or-equal. -/
theorem cell_scalar_trichotomy (c : Cell) (v : Rat)
    (h : c.bound = none ∨ ∃ x xs, c.bound = some (x :: xs)) :
    ∃ bl be bg ble : Bool,
      num_lt_cell v c = .ok bl ∧ num_eq_cell v c = .ok be ∧
      num_gt_cell v c = .ok bg ∧ num_le_cell v c = .ok ble ∧
      bl.toNat + be.toNat + bg.toNat = 1 ∧ ble = (bl || be) := by
  obtain ⟨p, b⟩ := c
  rcases h with h | ⟨x, xs, h⟩
  · simp only at h
    subst h
    refine ⟨decide (v < p), decide (p = v), decide (p < v), decide (v ≤ p),
      rfl, rfl, rfl, rfl, ?_, ?_⟩
    · rcases lt_trichotomy v p with hv | hv | hv
      · simp [hv, hv.ne', asymm hv]
      · simp [hv]
      · simp [hv, hv.ne, asymm hv]
    · rcases lt_trichotomy v p with hv | hv | hv
      · simp [hv, hv.ne', le_of_lt hv]
      · simp [hv]
      · simp [hv.ne, asymm hv, not_le.mpr hv]
  · simp only at h
    subst h
    obtain ⟨m, hm⟩ : ∃ m, listMin (x :: xs) = some m := ⟨_, rfl⟩
    obtain ⟨M, hM⟩ : ∃ M, listMax (x :: xs) = some M := ⟨_, rfl⟩
    have hmM : m ≤ M := listMin_le_listMax _ _ _ hm hM
    refine ⟨decide (v < m), decide (m ≤ v) && decide (v ≤ M), decide (M < v),
      decide (v ≤ M), ?_, ?_, ?_, ?_, ?_, ?_⟩
    · simp [num_lt_cell, Cell.common_cmp_num, hm, applyOp]
    · simp [num_eq_cell, Cell.eq_num, Cell.contains_point, hm, hM]
    · simp [num_gt_cell, Cell.common_cmp_num, hM, applyOp]
    · simp [num_le_cell, Cell.common_cmp_num, hM, applyOp]
    · rcases lt_or_le v m with hv | hv
      · simp [hv, not_le.mpr hv, (hv.trans_le hmM).asymm]
      · rcases le_or_lt v M with hv2 | hv2
        · simp [not_lt.mpr hv, hv, hv2, not_lt.mpr hv2]
        · simp [not_lt.mpr hv, hv, not_le.mpr hv2, hv2]
    · rcases lt_or_le v m with hv | hv
      · simp [hv, le_of_lt (hv.trans_le hmM)]
      · rcases le_or_lt v M with hv2 | hv2
        · simp [not_lt.mpr hv, hv, hv2]
        · simp [not_lt.mpr hv, hv, not_le.mpr hv2]

/-- Witness for cell_scalar_trichotomy at the bounded cell Cell(3, (2, 4))
and the value 3. -/
theorem cell_scalar_trichotomy_witness :
    ((Cell.mk 3 (some [2, 4])).bound = none ∨
      ∃ x xs, (Cell.mk 3 (some [2, 4])).bound = some (x :: xs)) ∧
    (∃ bl be bg ble : Bool,
      num_lt_cell 3 (Cell.mk 3 (some [2, 4])) = .ok bl ∧
      num_eq_cell 3 (Cell.mk 3 (some [2, 4])) = .ok be ∧
      num_gt_cell 3 (Cell.mk 3 (some [2, 4])) = .ok bg ∧
      num_le_cell 3 (Cell.mk 3 (some [2, 4])) = .ok ble ∧
      bl.toNat + be.toNat + bg.toNat = 1 ∧ ble = (bl || be)) :=
  ⟨Or.inr ⟨2, [4], rfl⟩,
    cell_scalar_trichotomy (Cell.mk 3 (some [2, 4])) 3 (Or.inr ⟨2, [4], rfl⟩)⟩

/-- Lexicographic comparison of the triples (first bound element, second
bound element, point): the tie-break sequence the source actually implements
for two bounded cells, indexing bound[0] and bound[1] positionally. -/
def lexTriple (a0 a1 pa b0 b1 pb : Rat) : Bool :=
  if a0 = b0 then (if a1 = b1 then decide (pa < pb) else decide (a1 < b1))
  else decide (a0 < b0)

/-- Claim C2, amended: with equal points, a point-only cell is strictly less
than a point-and-bound cell and not conversely; and two bounded cells are
ordered positionally by bound[0], then bound[1], then point (the source
indexes the bound tuple; it does not take min and max of the bound, so for
a descending bound pair this differs from a minimum-first ordering). -/
theorem cell_order_tiebreak (p pa pb a0 a1 b0 b1 : Rat) (l : List Rat) :
    Cell.common_cmp_cell ⟨p, none⟩ ⟨p, some l⟩ .lt = .ok true ∧
    Cell.common_cmp_cell ⟨p, some l⟩ ⟨p, none⟩ .lt = .ok false ∧
    Cell.common_cmp_cell ⟨pa, some [a0, a1]⟩ ⟨pb, some [b0, b1]⟩ .lt =
      .ok (lexTriple a0 a1 pa b0 b1 pb) := by
  refine ⟨by simp [Cell.common_cmp_cell], by simp [Cell.common_cmp_cell], ?_⟩
  simp only [Cell.common_cmp_cell, pyIndex, lexTriple, applyOp, List.get?]
  by_cases h0 : a0 = b0 <;> by_cases h1 : a1 = b1 <;>
    simp [h0, h1, Bind.bind, Except.bind, Pure.pure, Except.pure]

/-- Counterexample to claim C2 as stated: for the bounded cells
a = Cell(3, (4, 2)) and b = Cell(3, (2, 5)) the bound minima agree (2 = 2)
and max(a.bound) = 4 < 5 = max(b.bound), so an ordering by bound minimum
then bound maximum would make a < b true; the source compares bound[0]
(4 versus 2), so a < b is false and b < a is true. -/
theorem cell_order_minmax_cex :
    Cell.common_cmp_cell ⟨3, some [4, 2]⟩ ⟨3, some [2, 5]⟩ .lt = .ok false ∧
    Cell.common_cmp_cell ⟨3, some [2, 5]⟩ ⟨3, some [4, 2]⟩ .lt = .ok true ∧
    listMin [(4 : Rat), 2] = listMin [(2 : Rat), 5] ∧
    listMax [(4 : Rat), 2] = some 4 ∧ listMax [(2 : Rat), 5] = some 5 :=
  ⟨rfl, rfl, by decide, by decide, by decide⟩

/-- Input to Cell.__new__: the point argument may be None, a scalar, or a
sequence (a list, a tuple, or a flattened ndarray). -/
inductive PointInput
  | scalar (q : Rat)
  | seq (l : List Rat)
deriving DecidableEq, Repr

/-- Cell.__new__: ValueError when point is None or is a sequence of length
other than 1; a length-1 sequence unwraps to its element. The bound, when
given, is converted with tuple() and stored unchanged; no length check is
applied to it. -/
def cell_new (point : Option PointInput) (bound : Option (List Rat)) :
    Except PyErr Cell :=
  match point with
  | none => .error .valueError
  | some (.scalar q) => .ok ⟨q, bound⟩
  | some (.seq [q]) => .ok ⟨q, bound⟩
  | some (.seq _) => .error .valueError

/-- Counterexample to claim C5 as stated: the constructor accepts a
three-element bound and stores it unchanged, so a Cell whose bound has a
length other than 2 is constructible. -/
theorem cell_new_bound_len3_cex :
    cell_new (some (.scalar 1)) (some [0, 1, 2]) = .ok ⟨1, some [0, 1, 2]⟩ ∧
    ([(0 : Rat), 1, 2]).length ≠ 2 :=
  ⟨rfl, by decide⟩

/-- Claim C5, amended: for a scalar point, Cell.__new__ stores any given
bound sequence as a tuple verbatim, without enforcing the 2-element pair
shape (a pair stays a pair, but other lengths are accepted as well). -/
theorem cell_new_bound_stored (q : Rat) (bound : Option (List Rat)) :
    cell_new (some (.scalar q)) bound = .ok ⟨q, bound⟩ := rfl

/-- A Python scalar value that is either a number or a string, the operand
domain relevant to Cell.__eq__ dispatch. -/
inductive PyVal
  | num (q : Rat)
  | str (s : String)
deriving DecidableEq, Repr

/-- Cell over PyVal points and bounds, as produced by numeric or string
coordinates. -/
structure CellS where
  point : PyVal
  bound : Option (List PyVal)
deriving DecidableEq, Repr

/-- Result of a Python __eq__ call: a boolean, the NotImplemented sentinel,
or a raised exception. -/
inductive PyEqResult
  | bool (b : Bool)
  | notImplemented
  | raised (e : PyErr)
deriving DecidableEq, Repr

/-- Python comparison a <= b over mixed values: ordering a number against a
string raises TypeError (Python 3 semantics). -/
def pyLeV (a b : PyVal) : Except PyErr Bool :=
  match a, b with
  | .num x, .num y => .ok (decide (x ≤ y))
  | .str x, .str y => .ok (decide (x ≤ y))
  | _, _ => .error .typeError

/-- One step of Python min over mixed values, keeping the earlier value on
ties. -/
def pyMinPair (a b : PyVal) : Except PyErr PyVal := do
  let blt ← pyLeV b a
  pure (if blt ∧ b ≠ a then b else a)

/-- One step of Python max over mixed values, keeping the earlier value on
ties. -/
def pyMaxPair (a b : PyVal) : Except PyErr PyVal := do
  let bgt ← pyLeV a b
  pure (if bgt ∧ b ≠ a then b else a)

/-- Python min over a sequence of values; ValueError on an empty sequence. -/
def pyValMin : List PyVal → Except PyErr PyVal
  | [] => .error .valueError
  | x :: xs => xs.foldlM pyMinPair x

/-- Python max over a sequence of values; ValueError on an empty sequence. -/
def pyValMax : List PyVal → Except PyErr PyVal
  | [] => .error .valueError
  | x :: xs => xs.foldlM pyMaxPair x

/-- Cell.contains_point over PyVal: min(bound) <= point <= max(bound) with
Python chained-comparison evaluation order; ValueError on an unbounded
cell. The datetime guard cannot fire for PyVal values. -/
def CellS.contains_point (c : CellS) (v : PyVal) : Except PyErr Bool :=
  match c.bound with
  | none => .error .valueError
  | some l => do
    let m ← pyValMin l
    let b1 ← pyLeV m v
    if b1 then do
      let M ← pyValMax l
      pyLeV v M
    else pure false

/-- Cell.__eq__ over PyVal operands, translated branch by branch: a numeric
operand gets membership (bounded cell) or point equality (unbounded); a
string operand gets point equality only when the cell is unbounded and its
point is itself a string; every other case returns NotImplemented. Python
cross-type equality is False, not an error. -/
def CellS.eq (c : CellS) (other : PyVal) : PyEqResult :=
  match other with
  | .num q =>
    match c.bound with
    | some _ =>
      match c.contains_point (.num q) with
      | .ok b => .bool b
      | .error e => .raised e
    | none => .bool (decide (c.point = .num q))
  | .str s =>
    match c.bound, c.point with
    | none, .str p => .bool (decide (p = s))
    | _, _ => .notImplemented

/-- Claim C10: equality of a Cell against a string operand is point equality
exactly when the cell is unbounded and its point is a string; a bounded
cell, or a cell with a non-string point, yields the NotImplemented sentinel
rather than a range-membership test or an exception. -/
theorem cell_eq_string_dispatch (c : CellS) (s p : String) :
    (c.bound = none → c.point = .str p →
      c.eq (.str s) = .bool (decide (p = s))) ∧
    (c.bound ≠ none → c.eq (.str s) = .notImplemented) ∧
    ((∀ q, c.point ≠ .str q) → c.eq (.str s) = .notImplemented) := by
  obtain ⟨pt, b⟩ := c
  refine ⟨?_, ?_, ?_⟩
  · intro hb hp
    simp only at hb hp
    subst hb
    subst hp
    rfl
  · intro hb
    cases b with
    | none => exact absurd rfl hb
    | some l => cases pt <;> rfl
  · intro hq
    cases pt with
    | num q => cases b <;> rfl
    | str q => exact absurd rfl (hq q)

/-- Witness for cell_eq_string_dispatch: an unbounded string-point cell
equals its own point string, and a bounded numeric cell compared against a
string gives NotImplemented. -/
theorem cell_eq_string_dispatch_witness :
    (CellS.mk (.str ("a")) none).eq (.str ("a")) = .bool true ∧
    (CellS.mk (.num 3) (some [.num 2, .num 4])).eq (.str ("a")) =
      .notImplemented := by
  constructor
  · have h := (cell_eq_string_dispatch (CellS.mk (.str ("a")) none)
      ("a") ("a")).1 rfl rfl
    simpa using h
  · exact (cell_eq_string_dispatch (CellS.mk (.num 3)
      (some [.num 2, .num 4])) ("a") ("a")).2.1 (by simp)

/-- CoordDefn: the identity-metadata named tuple. Name-like fields and the
units and coordinate-system references are modelled as optional strings
(strings carry a total order, standing in for the respective value types);
attributes take no part in the sort key. -/
structure CoordDefn where
  standard_name : Option String
  long_name : Option String
  var_name : Option String
  units : Option String
  attributes : List (String × String)
  coord_system : Option String
deriving DecidableEq, Repr

/-- An element of the _sort_key tuple: a presence flag (bool) or an optional
value. -/
inductive KeyElem
  | flag (b : Bool)
  | ostr (o : Option String)
deriving DecidableEq, Repr

/-- Python == on tuple elements: same-type comparison; cross-type equality
is False (never an error). -/
def pyEqKE : KeyElem → KeyElem → Bool
  | .flag a, .flag b => a == b
  | .ostr a, .ostr b => a == b
  | _, _ => false

/-- Python < on tuple elements: bools compare as the integers 0 and 1, so
False < True; strings compare lexicographically; None against None (or any
cross-type pair) raises TypeError. Unreachable from the sort key because
tuple comparison tests equality first. -/
def pyLtKE : KeyElem → KeyElem → Except PyErr Bool
  | .flag a, .flag b => .ok (!a && b)
  | .ostr (some a), .ostr (some b) => .ok (decide (a < b))
  | _, _ => .error .typeError

/-- Python tuple/list lexicographic less-than: scan for the first unequal
position and compare there; a strict prefix is less. -/
def pyListLt : List KeyElem → List KeyElem → Except PyErr Bool
  | [], [] => .ok false
  | [], _ :: _ => .ok true
  | _ :: _, [] => .ok false
  | x :: xs, y :: ys =>
    if pyEqKE x y then pyListLt xs ys else pyLtKE x y

/-- The _sort_key tuple of CoordDefn.__lt__: presence flag then value for
standard_name, long_name, var_name, units, coord_system, in that order. -/
def sortKey (d : CoordDefn) : List KeyElem :=
  [.flag d.standard_name.isSome, .ostr d.standard_name,
   .flag d.long_name.isSome, .ostr d.long_name,
   .flag d.var_name.isSome, .ostr d.var_name,
   .flag d.units.isSome, .ostr d.units,
   .flag d.coord_system.isSome, .ostr d.coord_system]

/-- CoordDefn.__lt__ for two CoordDefn operands (the non-CoordDefn operand
branch returns NotImplemented and is outside this typed model):
_sort_key(self) < _sort_key(other) under Python tuple comparison. -/
def CoordDefn.lt (a b : CoordDefn) : Except PyErr Bool :=
  pyListLt (sortKey a) (sortKey b)

/-- Three-way comparison of one optional field under the order the source
implements: an absent field sorts before a present one, and two present
fields compare by value. -/
def fieldCmp (x y : Option String) : Ordering :=
  match x, y with
  | none, none => .eq
  | none, some _ => .lt
  | some _, none => .gt
  | some a, some b => if a = b then .eq else if a < b then .lt else .gt

/-- The specification-side ordering, written as an explicit lexicographic
chain over the five fields with absence-before-presence at each field. -/
def specLexLt (a b : CoordDefn) : Bool :=
  match fieldCmp a.standard_name b.standard_name with
  | .lt => true
  | .gt => false
  | .eq =>
    match fieldCmp a.long_name b.long_name with
    | .lt => true
    | .gt => false
    | .eq =>
      match fieldCmp a.var_name b.var_name with
      | .lt => true
      | .gt => false
      | .eq =>
        match fieldCmp a.units b.units with
        | .lt => true
        | .gt => false
        | .eq =>
          match fieldCmp a.coord_system b.coord_system with
          | .lt => true
          | .gt => false
          | .eq => false

theorem pyListLt_field_step (x y : Option String) (xs ys : List KeyElem)
    (r : Bool) (h : pyListLt xs ys = .ok r) :
    pyListLt (.flag x.isSome :: .ostr x :: xs) (.flag y.isSome :: .ostr y :: ys) =
      .ok (match fieldCmp x y with
           | .lt => true
           | .gt => false
           | .eq => r) := by
  cases x with
  | none =>
    cases y with
    | none => simpa [pyListLt, pyEqKE, fieldCmp] using h
    | some b => simp [pyListLt, pyEqKE, pyLtKE, fieldCmp]
  | some a =>
    cases y with
    | none => simp [pyListLt, pyEqKE, pyLtKE, fieldCmp]
    | some b =>
      by_cases hab : a = b
      · subst hab
        simpa [pyListLt, pyEqKE, fieldCmp] using h
      · by_cases hlt : a < b
        · simp [pyListLt, pyEqKE, pyLtKE, fieldCmp, hab, hlt]
        · simp [pyListLt, pyEqKE, pyLtKE, fieldCmp, hab, hlt]

/-- Claim C4, amended: CoordDefn.__lt__ never raises and equals the
lexicographic chain over (standard_name, long_name, var_name, units,
coord_system) in which an ABSENT field sorts before a present one (the
presence flags are Python booleans and False < True, so absence-as-None
comes first, the reverse of the claimed direction), with present fields
compared by value and attributes taking no part. -/
theorem defn_lt_lexicographic (a b : CoordDefn) :
    CoordDefn.lt a b = .ok (specLexLt a b) := by
  have h0 : pyListLt [] [] = .ok false := rfl
  have h1 := pyListLt_field_step a.coord_system b.coord_system [] [] false h0
  have h2 := pyListLt_field_step a.units b.units _ _ _ h1
  have h3 := pyListLt_field_step a.var_name b.var_name _ _ _ h2
  have h4 := pyListLt_field_step a.long_name b.long_name _ _ _ h3
  have h5 := pyListLt_field_step a.standard_name b.standard_name _ _ _ h4
  simpa [CoordDefn.lt, sortKey, specLexLt] using h5

/-- Counterexample to claim C4 as stated: a definition with standard_name
present is NOT less than the all-absent definition; the all-absent
definition sorts first, so presence does not sort before absence. -/
theorem defn_lt_presence_cex :
    CoordDefn.lt
      (CoordDefn.mk (some ("a")) none none none [] none)
      (CoordDefn.mk none none none none [] none) = .ok false ∧
    CoordDefn.lt
      (CoordDefn.mk none none none none [] none)
      (CoordDefn.mk (some ("a")) none none none [] none) = .ok true :=
  ⟨rfl, rfl⟩

/-- A one-dimensional coordinate at the value level: identity metadata (as
in CoordDefn), a points array, and an optional bounds array of per-cell
pairs (the conventional two bounds per cell). The points and bounds arrays
are held directly: for the read, copy and slice operations the DataManager
backing is transparent (its core and realised array are the held array). -/
structure Coord1D where
  standard_name : Option String
  long_name : Option String
  var_name : Option String
  units : Option String
  attributes : List (String × String)
  coord_system : Option String
  points : List Rat
  bounds : Option (List (Rat × Rat))
deriving DecidableEq, Repr

/-- Coord._as_defn: the CoordDefn built from the metadata fields. -/
def Coord1D.as_defn (c : Coord1D) : CoordDefn :=
  ⟨c.standard_name, c.long_name, c.var_name, c.units, c.attributes,
   c.coord_system⟩

/-- Coord.__eq__ between two coordinates (both operands expose _as_defn, so
the comparison runs): definition equality, then array_equal on the points,
then bounds equal or both absent. -/
def coordEq (a b : Coord1D) : Bool :=
  decide (a.as_defn = b.as_defn) && decide (a.points = b.points) &&
    (match a.bounds, b.bounds with
     | some x, some y => decide (x = y)
     | none, none => true
     | _, _ => false)

/-- Coord.copy: bounds without points is a ValueError; with new points the
result carries the new points and exactly the bounds passed (none when
omitted, so new points discard the bounds copied from self); with no
arguments it is a plain deep copy. -/
def Coord1D.copy (c : Coord1D) (points : Option (List Rat))
    (bounds : Option (List (Rat × Rat))) : Except PyErr Coord1D :=
  match points, bounds with
  | none, some _ => .error .valueError
  | none, none => .ok c
  | some p, b => .ok { c with points := p, bounds := b }

/-- Modelled from the spec: iris.util._slice_data_with_keys is outside the
source tree; the spec says indexed slicing applies the same index
expression to the points and, per-cell, to the bounds (trailing bounds axis
untouched). The index expression is modelled as a list of cell indices;
none on an out-of-range index. -/
def sliceList {α : Type} (l : List α) (keys : List Nat) : Option (List α) :=
  keys.mapM (fun k => l.get? k)

/-- Coord.__getitem__: the method begins with
points = self._points_dm.core_data() and, unconditionally,
bounds = self._bounds_dm.core_data() — so for a coordinate without bounds
the bounds DataManager is None and the attribute access raises
AttributeError before any slicing happens. With bounds present, points and
bounds are sliced with the same keys, copied, and passed to
self.copy(points, bounds); an out-of-range key is an IndexError. -/
def Coord1D.getitem (c : Coord1D) (keys : List Nat) : Except PyErr Coord1D :=
  match c.bounds with
  | none => .error .attributeError
  | some bs =>
    match sliceList c.points keys, sliceList bs keys with
    | some p, some b => c.copy (some p) (some b)
    | _, _ => .error .indexError

/-- Claim C3, amended: in this snapshot the round trip
coord[keys].copy(points = coord[keys].points) never reproduces coord[keys].
Slicing a bounds-free coordinate raises AttributeError outright (the
unconditional bounds DataManager dereference in Coord.__getitem__), every
slice that is produced has bounds, and the copy — points given, bounds
omitted — resets those bounds to none, so the copied coordinate is not
equal to the slice. -/
theorem copy_roundtrip_never_equal (c s s2 : Coord1D) (keys : List Nat) :
    (c.bounds = none → Coord1D.getitem c keys = .error .attributeError) ∧
    (Coord1D.getitem c keys = .ok s → s.bounds.isSome = true) ∧
    (Coord1D.getitem c keys = .ok s →
      s.copy (some s.points) none = .ok s2 → coordEq s2 s = false) := by
  refine ⟨?_, ?_, ?_⟩
  · intro h
    simp [Coord1D.getitem, h]
  · intro h
    cases hb : c.bounds with
    | none => simp [Coord1D.getitem, hb] at h
    | some bs =>
      simp only [Coord1D.getitem, hb] at h
      cases hsp : sliceList c.points keys with
      | none => rw [hsp] at h; simp at h
      | some p =>
        cases hsb : sliceList bs keys with
        | none => rw [hsp, hsb] at h; simp at h
        | some b =>
          rw [hsp, hsb] at h
          simp only [Coord1D.copy, Except.ok.injEq] at h
          subst h
          rfl
  · intro h hc
    cases hb : c.bounds with
    | none => simp [Coord1D.getitem, hb] at h
    | some bs =>
      simp only [Coord1D.getitem, hb] at h
      cases hsp : sliceList c.points keys with
      | none => rw [hsp] at h; simp at h
      | some p =>
        cases hsb : sliceList bs keys with
        | none => rw [hsp, hsb] at h; simp at h
        | some b =>
          rw [hsp, hsb] at h
          simp only [Coord1D.copy, Except.ok.injEq] at h
          subst h
          simp only [Coord1D.copy, Except.ok.injEq] at hc
          subst hc
          simp [coordEq]

def rtCoordW : Coord1D :=
  ⟨some ("latitude"), none, none, some ("1"), [], none, [1, 2, 3], none⟩

def rtBCoordW : Coord1D :=
  ⟨some ("latitude"), none, none, some ("1"), [], none, [1, 3],
   some [(0, 2), (2, 4)]⟩

def rtBSliceW : Coord1D :=
  ⟨some ("latitude"), none, none, some ("1"), [], none, [1], some [(0, 2)]⟩

def rtBCopyW : Coord1D :=
  ⟨some ("latitude"), none, none, some ("1"), [], none, [1], none⟩

/-- Witness for copy_roundtrip_never_equal: a bounds-free coordinate whose
slicing raises, and a bounded coordinate whose slice loses its bounds in
the round-trip copy. -/
theorem copy_roundtrip_never_equal_witness :
    Coord1D.getitem rtCoordW [0] = .error .attributeError ∧
    rtBSliceW.bounds.isSome = true ∧
    coordEq rtBCopyW rtBSliceW = false :=
  ⟨(copy_roundtrip_never_equal rtCoordW rtBSliceW rtBCopyW [0]).1 rfl,
   (copy_roundtrip_never_equal rtBCoordW rtBSliceW rtBCopyW [0]).2.1 rfl,
   (copy_roundtrip_never_equal rtBCoordW rtBSliceW rtBCopyW [0]).2.2 rfl rfl⟩

/-- Counterexample to claim C3 as stated: the no-bounds half has no witness
at all — slicing the bounds-free coordinate raises AttributeError — and in
the bounded half the round-trip copy drops the bounds and is not equal to
coord[keys]. -/
theorem copy_roundtrip_bounds_cex :
    Coord1D.getitem rtCoordW [0] = .error .attributeError ∧
    Coord1D.getitem rtBCoordW [0] = .ok rtBSliceW ∧
    rtBSliceW.copy (some rtBSliceW.points) none = .ok rtBCopyW ∧
    coordEq rtBCopyW rtBSliceW = false :=
  ⟨rfl, rfl, rfl, by decide⟩

/-- Coord.replace_bounds: the source unconditionally calls
self._bounds_dm.replace(bounds); when the coordinate has no bounds, the
bounds DataManager is None (set so by Coord.__init__ and by the bounds
setters) and the attribute access raises AttributeError. When a manager
exists, the replacement itself is modelled from the spec (the backing-array
manager supports in-place replacement; passing None clears the held
bounds). -/
def Coord1D.replace_bounds (c : Coord1D) (b : Option (List (Rat × Rat))) :
    Except PyErr Coord1D :=
  match c.bounds with
  | none => .error .attributeError
  | some _ => .ok { c with bounds := b }

/-- Coord.replace_points: replace the points in place (DataManager.replace,
modelled from the spec), then call self.replace_bounds() to clear the
bounds. -/
def Coord1D.replace_points (c : Coord1D) (p : List Rat) :
    Except PyErr Coord1D :=
  Coord1D.replace_bounds { c with points := p } none

def rpCoordW : Coord1D :=
  ⟨some ("longitude"), none, none, some ("1"), [], none, [1, 2, 3], none⟩

/-- Claim C6 is contradicted by the source: on a coordinate that currently
has no bounds, replace_points raises AttributeError, because it always
calls replace_bounds, which dereferences the absent bounds DataManager. -/
theorem replace_points_no_bounds_raises :
    rpCoordW.bounds = none ∧
    rpCoordW.replace_points [4, 5, 6] = .error .attributeError :=
  ⟨rfl, rfl⟩

/-- Strictly increasing adjacent pairs. -/
def strictlyIncreasing : List Rat → Bool
  | a :: b :: t => decide (a < b) && strictlyIncreasing (b :: t)
  | _ => true

/-- Strictly decreasing adjacent pairs. -/
def strictlyDecreasing : List Rat → Bool
  | a :: b :: t => decide (b < a) && strictlyDecreasing (b :: t)
  | _ => true

/-- Modelled from the spec: iris.util.monotonic with strict=True, as used by
Coord.is_monotonic — strictly increasing or strictly decreasing, no ties. -/
def monotonicStrict (l : List Rat) : Bool :=
  strictlyIncreasing l || strictlyDecreasing l

/-- Modelled from the spec: iris.util.monotonic with strict=True and
return_direction=True, as used by the DimCoord bounds requirements; the
direction is true for increasing, false for decreasing, none when not
strictly monotonic. -/
def monotonicDir (l : List Rat) : Option Bool :=
  if strictlyIncreasing l then some true
  else if strictlyDecreasing l then some false
  else none

/-- Coord.is_monotonic for a 1-D coordinate (the ndim guard passes by
construction here): a length-1 coordinate is trivially monotonic; otherwise
the points and every bounds column must be strictly monotonic. -/
def Coord1D.is_monotonic (c : Coord1D) : Bool :=
  if c.points.length = 1 then true
  else
    monotonicStrict c.points &&
      (match c.bounds with
       | none => true
       | some bs =>
         monotonicStrict (bs.map Prod.fst) && monotonicStrict (bs.map Prod.snd))

/-- numpy diff on a 1-D array: differences of adjacent elements. -/
def adjDiffs : List Rat → List Rat
  | a :: b :: t => (b - a) :: adjDiffs (b :: t)
  | _ => []

/-- Coord._guess_bounds for a non-circular coordinate (the base Coord class
has no circular attribute, so getattr(self, circular, False) is False):
requires monotonic points, length at least 2, and absent bounds, then
builds diffs = [d0] ++ diff(points) ++ [dlast] and places
min_bound = point - diffs-before * position and
max_bound = point + diffs-after * (1 - position). The FUTURE latitude
clipping flag is outside the source tree and not modelled. -/
def Coord1D.guess_bounds_arr (c : Coord1D) (pos : Rat) :
    Except PyErr (List (Rat × Rat)) :=
  if c.is_monotonic = false then .error .valueError
  else if c.points.length < 2 then .error .valueError
  else if c.bounds.isSome then .error .valueError
  else
    match adjDiffs c.points with
    | [] => .error .indexError
    | d0 :: rest =>
      let ds := d0 :: rest
      let diffs := d0 :: (ds ++ [ds.getLastD d0])
      let minb := List.zipWith (fun p d => p - d * pos) c.points diffs.dropLast
      let maxb :=
        List.zipWith (fun p d => p + d * (1 - pos)) c.points (diffs.drop 1)
      .ok (List.zipWith Prod.mk minb maxb)

/-- DimCoord._new_bounds_requirements: bounds rows must match the points
length, values are numeric by type, and with more than one row every bounds
column must be strictly monotonic with a consistent direction. -/
def dim_new_bounds_requirements (c : Coord1D) (arr : List (Rat × Rat)) :
    Except PyErr Unit :=
  if c.points.length ≠ arr.length then .error .valueError
  else if 1 < arr.length then
    match monotonicDir (arr.map Prod.fst), monotonicDir (arr.map Prod.snd) with
    | some d1, some d2 => if d1 = d2 then .ok () else .error .valueError
    | _, _ => .error .valueError
  else .ok ()

/-- The DimCoord bounds property setter: None clears the bounds manager;
otherwise the requirements are checked and then the source executes
self._bounds_dm.data = bounds, which raises AttributeError whenever the
coordinate currently has no bounds manager. -/
def Coord1D.dim_set_bounds (c : Coord1D) (b : Option (List (Rat × Rat))) :
    Except PyErr Coord1D :=
  match b with
  | none => .ok { c with bounds := none }
  | some arr =>
    (dim_new_bounds_requirements c arr).bind (fun _ =>
      match c.bounds with
      | none => .error .attributeError
      | some _ => .ok { c with bounds := some arr })

/-- Coord.guess_bounds on a DimCoord: compute _guess_bounds and assign it
through the bounds property setter. (DimCoord.is_monotonic is the constant
True; for the monotonic inputs below the base check agrees.) -/
def Coord1D.dim_guess_bounds (c : Coord1D) (pos : Rat) :
    Except PyErr Coord1D :=
  (c.guess_bounds_arr pos).bind (fun arr => c.dim_set_bounds (some arr))

/-- numpy allclose over equal-length 1-D arrays:
abs(a - b) <= atol + rtol * abs(b), elementwise. -/
def allcloseRat (xs ys : List Rat) (rtol atol : Rat) : Bool :=
  (List.zipWith (fun a b => decide (|a - b| ≤ atol + rtol * |b|)) xs ys).all id

/-- Coord.is_contiguous: False without bounds; with bounds (1-D, two bounds
per cell by the pair type, so the sanity check passes), allclose of each
lower bound from the second cell on against the preceding upper bound. -/
def Coord1D.is_contiguous (c : Coord1D) (rtol atol : Rat) : Bool :=
  match c.bounds with
  | none => false
  | some bs =>
    allcloseRat ((bs.drop 1).map Prod.fst) ((bs.dropLast).map Prod.snd)
      rtol atol

def gbCoordW : Coord1D :=
  ⟨some ("latitude"), none, none, some ("1"), [], none, [0, 10], none⟩

/-- Claim C7 is contradicted by this source snapshot: guess_bounds on a
bounds-free DimCoord always raises, because after computing the bounds it
assigns them through the bounds setter, and the setter dereferences
self._bounds_dm, which is None precisely because the coordinate had no
bounds (a precondition guess_bounds itself enforces). The computed bounds
array itself is as specified and would be contiguous, as the remaining
conjuncts show at the failing input. -/
theorem guess_bounds_setter_raises :
    gbCoordW.dim_guess_bounds (1 / 2) = .error .attributeError ∧
    gbCoordW.guess_bounds_arr (1 / 2) = .ok [(-5, 5), (5, 15)] ∧
    Coord1D.is_contiguous { gbCoordW with bounds := some [(-5, 5), (5, 15)] }
      (1 / 100000) (1 / 100000000) = true := by
  have harr : gbCoordW.guess_bounds_arr (1 / 2) = .ok [(-5, 5), (5, 15)] := by
    norm_num [gbCoordW, Coord1D.guess_bounds_arr, Coord1D.is_monotonic,
      monotonicStrict, strictlyIncreasing, strictlyDecreasing, adjDiffs]
  refine ⟨?_, harr, ?_⟩
  · rw [Coord1D.dim_guess_bounds, harr]
    norm_num [gbCoordW, Coord1D.dim_set_bounds, dim_new_bounds_requirements,
      monotonicDir, strictlyIncreasing, strictlyDecreasing, Except.bind]
  · norm_num [gbCoordW, Coord1D.is_contiguous, allcloseRat]

/-- First index at which the predicate holds (length of the list when
none), the value of numpy where(cond)[0][0] over a boolean condition. -/
def firstIdxWhere {α : Type} (p : α → Bool) : List α → Nat
  | [] => 0
  | x :: xs => if p x then 0 else firstIdxWhere p xs + 1

theorem firstIdxWhere_lt_length {α : Type} (p : α → Bool) (l : List α)
    (h : ∃ x ∈ l, p x = true) : firstIdxWhere p l < l.length := by
  induction l with
  | nil => simp at h
  | cons x xs ih =>
    by_cases hx : p x
    · simp [firstIdxWhere, hx]
    · obtain ⟨w, hw, hpw⟩ := h
      rcases List.mem_cons.mp hw with hw | hw
      · rw [hw] at hpw
        exact absurd hpw hx
      · have := ih ⟨w, hw, hpw⟩
        simp [firstIdxWhere, hx]
        omega

theorem firstIdxWhere_pred {α : Type} (p : α → Bool) (l : List α)
    (h : firstIdxWhere p l < l.length) :
    p (l.get ⟨firstIdxWhere p l, h⟩) = true := by
  induction l with
  | nil => simp at h
  | cons x xs ih =>
    by_cases hx : p x
    · simp [firstIdxWhere, hx]
    · have h2 : firstIdxWhere p xs < xs.length := by
        simp [firstIdxWhere, hx] at h
        omega
      have := ih h2
      simpa [firstIdxWhere, hx] using this

theorem firstIdxWhere_le {α : Type} (p : α → Bool) (l : List α) (j : Nat)
    (hj : j < l.length) (hp : p (l.get ⟨j, hj⟩) = true) :
    firstIdxWhere p l ≤ j := by
  induction l generalizing j with
  | nil => simp at hj
  | cons x xs ih =>
    by_cases hx : p x
    · simp [firstIdxWhere, hx]
    · cases j with
      | zero =>
        simp at hp
        exact absurd hp hx
      | succ j2 =>
        have hj2 : j2 < xs.length := by simpa using hj
        have hp2 : p (xs.get ⟨j2, hj2⟩) = true := by simpa using hp
        have := ih j2 hj2 hp2
        simp [firstIdxWhere, hx]
        omega

/-- Coord.nearest_neighbour_index, no-bounds non-circular branch (the
coordinate is 1-D and the base Coord class has no circular attribute): the
distances array is the elementwise absolute difference of the points to the
query, and the result is the first index attaining the minimum distance
(numpy where(distances == min(distances))[0][0]); ValueError on an empty
points array (numpy min of an empty array raises). -/
def nearest_neighbour_index_unbounded (points : List Rat) (v : Rat) :
    Except PyErr Nat :=
  match listMin (points.map fun p => |p - v|) with
  | none => .error .valueError
  | some m =>
    .ok (firstIdxWhere (fun d => decide (d = m)) (points.map fun p => |p - v|))

theorem get_map_abs (points : List Rat) (v : Rat) (j : Nat)
    (hj2 : j < (points.map fun p => |p - v|).length)
    (hj : j < points.length) :
    (points.map fun p => |p - v|).get ⟨j, hj2⟩ = |points.get ⟨j, hj⟩ - v| := by
  simp

/-- Claim C8: on a non-empty 1-D unbounded coordinate,
nearest_neighbour_index returns an index whose point has minimal absolute
distance to the query, and on ties the lowest such index. -/
theorem nearest_neighbour_unbounded (points : List Rat) (v : Rat)
    (h : points ≠ []) :
    ∃ i, nearest_neighbour_index_unbounded points v = .ok i ∧
      ∃ hi : i < points.length,
        (∀ (j : Nat) (hj : j < points.length),
          |points.get ⟨i, hi⟩ - v| ≤ |points.get ⟨j, hj⟩ - v|) ∧
        (∀ (j : Nat) (hj : j < points.length),
          |points.get ⟨j, hj⟩ - v| = |points.get ⟨i, hi⟩ - v| → i ≤ j) := by
  obtain ⟨m, hm⟩ : ∃ m, listMin (points.map fun p => |p - v|) = some m := by
    cases hmin : listMin (points.map fun p => |p - v|) with
    | none =>
      rw [listMin_eq_none, List.map_eq_nil_iff] at hmin
      exact absurd hmin h
    | some m => exact ⟨m, rfl⟩
  have hex : ∃ x ∈ points.map (fun p => |p - v|),
      (fun d => decide (d = m)) x = true :=
    ⟨m, listMin_mem _ m hm, by simp⟩
  have hilt := firstIdxWhere_lt_length _ _ hex
  have hget := of_decide_eq_true (firstIdxWhere_pred _ _ hilt)
  have hi : firstIdxWhere (fun d => decide (d = m))
      (points.map fun p => |p - v|) < points.length := by
    simpa using hilt
  have hival : |points.get ⟨firstIdxWhere (fun d => decide (d = m))
      (points.map fun p => |p - v|), hi⟩ - v| = m :=
    (get_map_abs points v _ hilt hi).symm.trans hget
  refine ⟨_, ?_, hi, ?_, ?_⟩
  · simp only [nearest_neighbour_index_unbounded, hm]
  · intro j hj
    have hj2 : j < (points.map fun p => |p - v|).length := by simpa using hj
    rw [hival, ← get_map_abs points v j hj2 hj]
    exact listMin_le _ m hm _ (List.get_mem _ _ _)
  · intro j hj heq
    have hj2 : j < (points.map fun p => |p - v|).length := by simpa using hj
    have hp : (fun d => decide (d = m))
        ((points.map fun p => |p - v|).get ⟨j, hj2⟩) = true := by
      rw [get_map_abs points v j hj2 hj, heq, hival]
      simp
    exact firstIdxWhere_le _ _ j hj2 hp

/-- Witness for nearest_neighbour_unbounded at the exact-tie input: points
(0, 10) and query 5. -/
theorem nearest_neighbour_unbounded_witness :
    ([(0 : Rat), 10] ≠ []) ∧
    (∃ i, nearest_neighbour_index_unbounded [0, 10] 5 = .ok i ∧
      ∃ hi : i < ([(0 : Rat), 10]).length,
        (∀ (j : Nat) (hj : j < ([(0 : Rat), 10]).length),
          |([(0 : Rat), 10]).get ⟨i, hi⟩ - 5| ≤ |([(0 : Rat), 10]).get ⟨j, hj⟩ - 5|) ∧
        (∀ (j : Nat) (hj : j < ([(0 : Rat), 10]).length),
          |([(0 : Rat), 10]).get ⟨j, hj⟩ - 5| = |([(0 : Rat), 10]).get ⟨i, hi⟩ - 5| →
            i ≤ j)) :=
  ⟨by simp, nearest_neighbour_unbounded [0, 10] 5 (by simp)⟩

example : nearest_neighbour_index_unbounded [0, 10] 5 = .ok 0 := by
  norm_num [nearest_neighbour_index_unbounded, listMin, firstIdxWhere]

/-- A numpy array reduced to its shape and flat data, as needed for the
AuxCoord points property. -/
structure NpArray where
  shape : List Nat
  data : List Rat
deriving DecidableEq, Repr

/-- numpy array coercion with ndmin=1, part of AuxCoord._sanitise_array
(the lazy branch reshapes a 0-d array the same way): a 0-d array becomes
shape (1,); other arrays are unchanged. The writeable and view steps are
the identity at the value level. -/
def sanitise_ndmin1 (a : NpArray) : NpArray :=
  if a.shape = [] then { a with shape := [1] } else a

/-- The points-related state of an AuxCoord in this source snapshot:
Coord.__init__ stores the constructor points in a DataManager
(self._points_dm, whose shape the inherited Coord.shape property reports),
while the AuxCoord points property getter and setter use a separate
_points attribute that the constructor never initialises. -/
structure AuxCoord where
  points_dm : NpArray
  points_attr : Option NpArray
deriving DecidableEq, Repr

/-- AuxCoord construction from points: Coord.__init__ fills the points
DataManager directly and leaves the _points attribute unset. -/
def AuxCoord.new (p : NpArray) : AuxCoord :=
  ⟨p, none⟩

/-- Coord.shape: the shape reported by the points DataManager. -/
def AuxCoord.shape (c : AuxCoord) : List Nat :=
  c.points_dm.shape

/-- The AuxCoord points property setter: sanitise the new array to ndmin 1;
only when the _points attribute already exists (hasattr and not None) is
the new shape compared against self.shape — which reads the DataManager,
not _points — and a mismatch rejected; finally store into _points. -/
def AuxCoord.set_points (c : AuxCoord) (p : NpArray) : Except PyErr AuxCoord :=
  match c.points_attr with
  | some _ =>
    if (sanitise_ndmin1 p).shape ≠ c.shape then .error .valueError
    else .ok { c with points_attr := some (sanitise_ndmin1 p) }
  | none => .ok { c with points_attr := some (sanitise_ndmin1 p) }

/-- The AuxCoord points property getter: reads the _points attribute,
raising AttributeError when it was never assigned. -/
def AuxCoord.get_points (c : AuxCoord) : Except PyErr NpArray :=
  match c.points_attr with
  | some a => .ok a
  | none => .error .attributeError

/-- Claim C9 is contradicted by this source snapshot: on an AuxCoord
constructed with points of shape (2,), assigning the points property an
array of shape (3,) succeeds — the setter skips its shape check because
the _points attribute is unset after construction — and afterwards the
points read back with shape (3,), so the shape is not invariant. -/
theorem aux_points_shape_check_bypassed :
    (AuxCoord.new ⟨[2], [1, 2]⟩).set_points ⟨[3], [7, 8, 9]⟩ =
      .ok ⟨⟨[2], [1, 2]⟩, some ⟨[3], [7, 8, 9]⟩⟩ ∧
    (⟨[3], [7, 8, 9]⟩ : NpArray).shape ≠ (AuxCoord.new ⟨[2], [1, 2]⟩).shape ∧
    AuxCoord.get_points ⟨⟨[2], [1, 2]⟩, some ⟨[3], [7, 8, 9]⟩⟩ =
      .ok ⟨[3], [7, 8, 9]⟩ ∧
    ([3] : List Nat) ≠ [2] :=
  ⟨rfl, by decide, rfl, by decide⟩

end IrisCoords
